import Mathlib

/-!
Verification of the multilingual AI news summarizer pipeline
(src/pipeline.py, src/db.py, and the cache gateway used by src/app.py,
src/demo.py and src/cache_demo.py).

Article text is modelled as `List Char` (Python `str` with slicing);
language codes as `String`.  External model calls (the `langdetect`
classifier and the HuggingFace translation/summarization pipelines) are
modelled as explicit function parameters returning `Except Unit _`,
where `.error ()` models a raised exception.  The module-level model
cache `_translator_ar` / `_translator_fr` / `_summarizer` of pipeline.py
is modelled as a `TransState` record threaded through the functions:
a flag is `true` exactly when the corresponding global is not `None`.
`DetectorFactory.seed = 0` (pipeline.py line 21) makes the classifier
deterministic, which the model reflects by taking the classifier as a
pure function.
-/

set_option maxRecDepth 40000

namespace NewsSummarizer

/-- pipeline.py `SUPPORTED_LANGUAGES`: dict from language code to name. -/
def SUPPORTED_LANGUAGES : List (String × String) :=
  [("ar", "Arabic"), ("en", "English"), ("fr", "French")]

/-- Python `detected in SUPPORTED_LANGUAGES`: membership among the dict keys. -/
def supported (code : String) : Bool :=
  SUPPORTED_LANGUAGES.any (fun p => p.1 == code)

/-- Module-level model cache of pipeline.py: which of the three lazily
loaded model globals (`_translator_ar`, `_translator_fr`, `_summarizer`)
are currently loaded (not `None`). -/
structure TransState where
  translator_ar : Bool
  translator_fr : Bool
  summarizer : Bool
deriving DecidableEq, Repr

/-- External model behaviour: the lazy `pipeline(...)` constructions (which
may raise) and the loaded models' invocations on a given input (which may
raise or return output text).  `run_sum` takes the input text, `max_length`
and `min_length`. -/
structure ModelEnv where
  load_ar : Except Unit Unit
  load_fr : Except Unit Unit
  load_sum : Except Unit Unit
  run_ar : List Char → Except Unit (List Char)
  run_fr : List Char → Except Unit (List Char)
  run_sum : List Char → Nat → Nat → Except Unit (List Char)

/-- pipeline.py `detect_language`: reject text shorter than 10 chars
(`if not text or len(text) < 10`; the empty string is subsumed by the
length test), classify only the first 500 chars, keep only supported
codes; a classifier exception yields `None`. -/
def detect_language (classify : List Char → Except Unit String)
    (text : List Char) : Option String :=
  if text.length < 10 then none
  else
    match classify (text.take 500) with
    | .ok detected => if supported detected then some detected else none
    | .error _ => none

/-- The chunk list `[text[i:i+500] for i in range(0, len(text), 500)]`
of pipeline.py lines 126 and 152, generalized over the chunk size `n`.
For a nonempty list and `n ≥ 1` this takes the leading `n`-element window
and recurses on the remainder. -/
def splitChunks (n : Nat) : List Char → List (List Char)
  | [] => []
  | a :: l => ((a :: l).take n) :: splitChunks n (l.drop (n - 1))
termination_by l => l.length
decreasing_by
  simp only [List.length_drop, List.length_cons]
  omega

/-- The chunking step of `translate_to_english`: text of more than 500
chars is split into 500-char windows, shorter text is passed to the model
as a single piece. -/
def chunkText (text : List Char) : List (List Char) :=
  if text.length > 500 then splitChunks 500 text else [text]

theorem splitChunks_cons (n : Nat) (a : Char) (l : List Char) :
    splitChunks n (a :: l) = ((a :: l).take n) :: splitChunks n (l.drop (n - 1)) := by
  rw [splitChunks]

theorem splitChunks_flatten (n : Nat) (hn : 0 < n) :
    ∀ l : List Char, (splitChunks n l).flatten = l
  | [] => by rw [splitChunks]; rfl
  | a :: l => by
    rw [splitChunks_cons]
    obtain ⟨m, rfl⟩ := Nat.exists_eq_add_of_lt hn
    have ih := splitChunks_flatten (0 + m + 1) hn (l.drop (0 + m + 1 - 1))
    simp only [List.flatten_cons, ih]
    simp [List.take_succ_cons]
termination_by l => l.length
decreasing_by
  simp only [List.length_drop, List.length_cons]
  omega

theorem splitChunks_getElem (n : Nat) (hn : 0 < n) :
    ∀ (l : List Char) (i : Nat), i < (splitChunks n l).length →
      (splitChunks n l)[i]? = some ((l.drop (n * i)).take n)
  | [], i, h => by simp [splitChunks] at h
  | a :: l, 0, h => by
    rw [splitChunks_cons]
    simp
  | a :: l, i + 1, h => by
    rw [splitChunks_cons] at h ⊢
    simp only [List.getElem?_cons_succ]
    rw [splitChunks_getElem n hn (l.drop (n - 1)) i (by simpa using h)]
    rw [List.drop_drop]
    rw [Nat.mul_succ]
    generalize n * i = m
    obtain ⟨k, hk⟩ : ∃ k, m + n = k + 1 := ⟨m + n - 1, by omega⟩
    rw [hk, List.drop_succ_cons]
    congr 3
    omega
termination_by l => l.length
decreasing_by
  simp only [List.length_drop, List.length_cons]
  omega

/-- Chunked invocation of a loaded translation model, pipeline.py lines
123-134 / 150-160: text over 500 chars is split into 500-char windows,
each translated in order and rejoined with a single space; shorter text is
translated in one call.  The first raised exception aborts the loop. -/
def runChunks (run : List Char → Except Unit (List Char))
    (text : List Char) : Except Unit (List Char) :=
  if text.length > 500 then
    match (splitChunks 500 text).mapM run with
    | .ok translated_chunks => .ok (List.intercalate [' '] translated_chunks)
    | .error e => .error e
  else run text

/-- The `try` block of pipeline.py `translate_to_english` (lines 111-163):
lazily load the per-language model (recording it in the module cache on
success), then run the chunked translation.  Returns the raised exception,
if any, together with the module cache state at the point it was raised. -/
def translateTry (env : ModelEnv) (text : List Char) (source_language : String)
    (st : TransState) : Except Unit (List Char) × TransState :=
  if source_language = "ar" then
    if st.translator_ar then (runChunks env.run_ar text, st)
    else
      match env.load_ar with
      | .error e => (.error e, st)
      | .ok _ => (runChunks env.run_ar text, { st with translator_ar := true })
  else if source_language = "fr" then
    if st.translator_fr then (runChunks env.run_fr text, st)
    else
      match env.load_fr with
      | .error e => (.error e, st)
      | .ok _ => (runChunks env.run_fr text, { st with translator_fr := true })
  else (.ok text, st)

/-- pipeline.py `translate_to_english`: English text is returned as-is;
a source language outside `['ar', 'fr']` passes through unchanged; the
translation attempt's exceptions are caught and fall back to the original
text (`except ... return text`). -/
def translate_to_english (env : ModelEnv) (text : List Char)
    (source_language : String) (st : TransState) : List Char × TransState :=
  if source_language = "en" then (text, st)
  else if source_language = "ar" ∨ source_language = "fr" then
    match translateTry env text source_language st with
    | (.ok translated, st') => (translated, st')
    | (.error _, st') => (text, st')
  else (text, st)

/-- The post-load part of pipeline.py `summarize_text` (lines 203-219):
truncate the input to its first 4000 chars when longer, then invoke the
loaded summarizer; an invocation exception is caught and the (rebound,
hence possibly truncated) local `text` is returned. -/
def summarizeRun (env : ModelEnv) (text : List Char)
    (max_length min_length : Nat) (st' : TransState) : List Char × TransState :=
  match env.run_sum (if text.length > 4000 then text.take 4000 else text)
      max_length min_length with
  | .ok summary => (summary, st')
  | .error _ => ((if text.length > 4000 then text.take 4000 else text), st')

/-- pipeline.py `summarize_text`: text under 200 chars is returned
unchanged without touching the model; otherwise the summarizer is lazily
loaded (a load exception is caught, returning the untruncated input) and
the truncated input is summarized via `summarizeRun`. -/
def summarize_text (env : ModelEnv) (text : List Char)
    (max_length min_length : Nat) (st : TransState) : List Char × TransState :=
  if text.length < 200 then (text, st)
  else if st.summarizer then summarizeRun env text max_length min_length st
  else
    match env.load_sum with
    | .error _ => (text, st)
    | .ok _ => summarizeRun env text max_length min_length { st with summarizer := true }

/-- The `article_data` dict produced by the scraper, as consumed by
`process_article`: a field is `none` when the key is absent. -/
structure ArticleData where
  url : Option (List Char)
  source : Option (List Char)
  title : Option (List Char)
  date : Option (List Char)
  text : Option (List Char)
deriving DecidableEq

/-- The result dict of pipeline.py `process_article` on the success path
(every field filled in before return). -/
structure ProcessedArticle where
  url : List Char
  source : List Char
  title : List Char
  date : List Char
  original_language : String
  original_text : List Char
  english_text : List Char
  summary : List Char
  processing_time : List Char
deriving DecidableEq

/-- pipeline.py `process_article`: validate the input dict, detect the
language (aborting with `None` on failure), translate unless already
English, summarize, and assemble the result record.  `elapsed` stands for
the measured wall-clock duration string. -/
def process_article (classify : List Char → Except Unit String)
    (env : ModelEnv) (article_data : Option ArticleData)
    (summary_max_length : Nat) (elapsed : List Char) (st : TransState) :
    Option ProcessedArticle × TransState :=
  match article_data with
  | none => (none, st)
  | some a =>
    match a.text with
    | none => (none, st)
    | some text =>
      match detect_language classify text with
      | none => (none, st)
      | some language =>
        let step2 : List Char × TransState :=
          if language = "en" then (text, st)
          else translate_to_english env text language st
        let step3 := summarize_text env step2.1 summary_max_length 50 step2.2
        (some {
          url := a.url.getD "N/A".toList,
          source := a.source.getD "Unknown".toList,
          title := a.title.getD "Untitled".toList,
          date := a.date.getD "N/A".toList,
          original_language := language,
          original_text := text,
          english_text := step2.1,
          summary := step3.1,
          processing_time := elapsed }, step3.2)

/-- The `article_data` dict passed to db.py `save_article`: a field is
`none` when the key is absent (a key present with Python value `None`
behaves identically there, since both fail the truthiness test and
`english_text`/`date`/`processing_time` are read with `.get`). -/
structure ArticleRecord where
  url : Option (List Char)
  source : Option (List Char)
  title : Option (List Char)
  original_language : Option (List Char)
  original_text : Option (List Char)
  english_text : Option (List Char)
  summary : Option (List Char)
  date : Option (List Char)
  processing_time : Option (List Char)
deriving DecidableEq

/-- One row of the `articles` table created by db.py `init_db`
(the surrogate `id` and server-assigned `date_processed` are implicit in
the row's list position). `english_text` is the only nullable
content column. -/
structure SavedRow where
  url : List Char
  source : List Char
  title : List Char
  original_language : List Char
  original_text : List Char
  english_text : Option (List Char)
  summary : List Char
  date_published : List Char
  processing_time : List Char
deriving DecidableEq

/-- Python truthiness of an optional string field:
`field not in article_data or not article_data[field]`. -/
def truthy : Option (List Char) → Bool
  | none => false
  | some s => !s.isEmpty

/-- The row tuple of db.py `save_article`'s INSERT (lines 87-102): the six
required fields plus `english_text` (may be `None`) and the `.get`-defaulted
`date` and `processing_time`. -/
def mkRow (article_data : ArticleRecord) : SavedRow :=
  { url := article_data.url.getD [],
    source := article_data.source.getD [],
    title := article_data.title.getD [],
    original_language := article_data.original_language.getD [],
    original_text := article_data.original_text.getD [],
    english_text := article_data.english_text,
    summary := article_data.summary.getD [],
    date_published := article_data.date.getD "N/A".toList,
    processing_time := article_data.processing_time.getD "N/A".toList }

/-- db.py `save_article`: reject the dict if any of the six required
fields is absent or falsy; insert the row unless the UNIQUE constraint on
`url` fires (`sqlite3.IntegrityError`), which is caught and reported as
`False` with the table unchanged. -/
def save_article (rows : List SavedRow) (article_data : ArticleRecord) :
    Bool × List SavedRow :=
  if truthy article_data.url && truthy article_data.source &&
     truthy article_data.title && truthy article_data.original_language &&
     truthy article_data.original_text && truthy article_data.summary then
    if rows.any (fun r => r.url == (mkRow article_data).url) then (false, rows)
    else (true, rows ++ [mkRow article_data])
  else (false, rows)

/-- Modelled from the spec: the persistence collaborator's
`get(url) -> ProcessedArticle | none` over a URL-keyed store (spec section 6);
the store is the association list of persisted rows in insertion order. -/
def storeGet (store : List (List Char × ProcessedArticle))
    (url : List Char) : Option ProcessedArticle :=
  (store.find? (fun e => e.1 == url)).map Prod.snd

/-- Modelled from the spec: the persistence collaborator's
`put(ProcessedArticle) -> success | duplicate-key-failure` keyed by URL with
a uniqueness constraint (spec section 6); a duplicate-key conflict is benign
and leaves the store unchanged. -/
def storePut (store : List (List Char × ProcessedArticle))
    (p : ProcessedArticle) : List (List Char × ProcessedArticle) :=
  if store.any (fun e => e.1 == p.url) then store
  else store ++ [(p.url, p)]

/-- Modelled from the spec: `process_article_with_cache` is imported from
`pipeline` by src/app.py, src/demo.py and src/cache_demo.py, but its
definition is not under src/.  Per spec section 4.6 (Cache Gateway): with
`force_refresh = false`, look up `raw_article.url` in the persisted store
and on a hit return the stored ProcessedArticle without invoking the
Orchestrator; on a miss (or with `force_refresh = true`) invoke the
Orchestrator and, on success, attempt to persist the result keyed by URL,
returning the in-flight result even if the write conflicts. -/
def process_article_with_cache (classify : List Char → Except Unit String)
    (env : ModelEnv) (store : List (List Char × ProcessedArticle))
    (article : ArticleData) (force_refresh : Bool) (summary_max_length : Nat)
    (elapsed : List Char) (st : TransState) :
    Option ProcessedArticle × List (List Char × ProcessedArticle) × TransState :=
  let url := article.url.getD "N/A".toList
  match (if force_refresh then none else storeGet store url) with
  | some cached => (some cached, store, st)
  | none =>
    match process_article classify env (some article) summary_max_length elapsed st with
    | (none, st') => (none, store, st')
    | (some p, st') => (some p, storePut store p, st')

/-! ### Concrete fixtures used by the witness theorems -/

/-- Initial module state: no model global is loaded yet. -/
def st0 : TransState := ⟨false, false, false⟩

/-- An environment in which every model load and invocation raises. -/
def envFail : ModelEnv :=
  ⟨.error (), .error (), .error (), fun _ => .error (),
   fun _ => .error (), fun _ _ _ => .error ()⟩

/-- An environment in which every model load and invocation succeeds. -/
def envOk : ModelEnv :=
  ⟨.ok (), .ok (), .ok (), fun t => .ok t, fun t => .ok t,
   fun t _ _ => .ok (t.take 50)⟩

/-- A classifier that always detects English. -/
def classifyEn : List Char → Except Unit String := fun _ => .ok "en"

/-- A classifier that always detects German (unsupported). -/
def classifyDe : List Char → Except Unit String := fun _ => .ok "de"

/-! ### Claim theorems -/

/-- C3: for every text of length at most 500, the chunking step used
during translation produces exactly one chunk equal to the input; for
every longer text the chunks are the contiguous in-order 500-character
windows (chunk `i` is `text[500*i : 500*i+500]`) and their concatenation,
ignoring the single-space join separator, reconstructs the input. -/
theorem chunkText_roundtrip (text : List Char) :
    (text.length ≤ 500 → chunkText text = [text]) ∧
    (text.length > 500 →
      (chunkText text).flatten = text ∧
      ∀ i, i < (chunkText text).length →
        (chunkText text)[i]? = some ((text.drop (500 * i)).take 500)) := by
  constructor
  · intro h
    unfold chunkText
    rw [if_neg (by omega)]
  · intro h
    have h500 : (0 : Nat) < 500 := by norm_num
    refine ⟨?_, ?_⟩
    · unfold chunkText
      rw [if_pos h]
      exact splitChunks_flatten 500 h500 text
    · intro i hi
      unfold chunkText at hi ⊢
      rw [if_pos h] at hi ⊢
      exact splitChunks_getElem 500 h500 text i hi

theorem splitChunks_nil (n : Nat) : splitChunks n [] = [] := by
  rw [splitChunks]

theorem chunkText_rep600 :
    chunkText (List.replicate 600 'a') =
      [List.replicate 500 'a', List.replicate 100 'a'] := by
  unfold chunkText
  rw [if_pos (by decide)]
  rw [show List.replicate 600 'a' = 'a' :: List.replicate 599 'a' from rfl]
  rw [splitChunks_cons]
  rw [show (List.replicate 599 'a').drop (500 - 1) =
        'a' :: List.replicate 99 'a' from by decide]
  rw [splitChunks_cons]
  rw [show (List.replicate 99 'a').drop (500 - 1) = ([] : List Char) from by decide]
  rw [splitChunks_nil]
  rw [show ('a' :: List.replicate 599 'a').take 500 =
        List.replicate 500 'a' from by decide]
  rw [show ('a' :: List.replicate 99 'a').take 500 =
        List.replicate 100 'a' from by decide]

theorem chunkText_roundtrip_witness :
    chunkText "Hello".toList = ["Hello".toList] ∧
    (chunkText (List.replicate 600 'a')).flatten = List.replicate 600 'a' ∧
    (chunkText (List.replicate 600 'a'))[1]? =
      some (((List.replicate 600 'a').drop (500 * 1)).take 500) :=
  ⟨(chunkText_roundtrip "Hello".toList).1 (by decide),
   ((chunkText_roundtrip (List.replicate 600 'a')).2 (by decide)).1,
   ((chunkText_roundtrip (List.replicate 600 'a')).2 (by decide)).2 1
     (by rw [chunkText_rep600]; decide)⟩

/-- C6: for every source language outside `{ar, fr}` — in particular `en`
and any unsupported code — `translate_to_english` returns the input text
unchanged and the module-level translator globals remain untouched. -/
theorem translate_to_english_passthrough (env : ModelEnv) (text : List Char)
    (source_language : String) (st : TransState)
    (har : source_language ≠ "ar") (hfr : source_language ≠ "fr") :
    translate_to_english env text source_language st = (text, st) := by
  unfold translate_to_english
  rcases eq_or_ne source_language "en" with h | h
  · rw [if_pos h]
  · rw [if_neg h, if_neg (not_or.mpr ⟨har, hfr⟩)]

theorem translate_to_english_passthrough_witness :
    translate_to_english envFail "Hello world".toList "en" st0 =
      ("Hello world".toList, st0) ∧
    translate_to_english envOk "Hola mundo".toList "es" st0 =
      ("Hola mundo".toList, st0) :=
  ⟨translate_to_english_passthrough envFail "Hello world".toList "en" st0
     (by decide) (by decide),
   translate_to_english_passthrough envOk "Hola mundo".toList "es" st0
     (by decide) (by decide)⟩

/-- C9: for every text shorter than 200 characters, `summarize_text`
returns the input unchanged, independently of the model environment and
without loading or invoking the summarization model. -/
theorem summarize_text_short_floor (env : ModelEnv) (text : List Char)
    (max_length min_length : Nat) (st : TransState)
    (h : text.length < 200) :
    summarize_text env text max_length min_length st = (text, st) := by
  unfold summarize_text
  rw [if_pos h]

theorem summarize_text_short_floor_witness :
    summarize_text envFail "Breaking news today.".toList 150 50 st0 =
      ("Breaking news today.".toList, st0) :=
  summarize_text_short_floor envFail "Breaking news today.".toList 150 50 st0
    (by decide)

/-- C7: `detect_language` always returns a code in the closed set
`{ar, en, fr}` or `none`; it returns `none` without invoking the
classifier whenever the text is empty or shorter than 10 characters
(the result then does not depend on the classifier at all), and it
returns `none` for any detected code outside the supported set. -/
theorem detect_language_closed_set
    (classify : List Char → Except Unit String) (text : List Char) :
    (detect_language classify text = none ∨
     detect_language classify text = some "ar" ∨
     detect_language classify text = some "en" ∨
     detect_language classify text = some "fr") ∧
    (text.length < 10 →
      ∀ classify₂ : List Char → Except Unit String,
        detect_language classify₂ text = none) ∧
    (∀ code, classify (text.take 500) = .ok code → supported code = false →
      detect_language classify text = none) := by
  refine ⟨?_, ?_, ?_⟩
  · unfold detect_language
    split
    · exact Or.inl rfl
    · cases hc : classify (text.take 500) with
      | error e => exact Or.inl rfl
      | ok detected =>
        cases hs : supported detected with
        | false => simp [hs]
        | true =>
          have hmem : detected = "ar" ∨ detected = "en" ∨ detected = "fr" := by
            have := hs
            unfold supported SUPPORTED_LANGUAGES at this
            simp only [List.any_cons, List.any_nil, Bool.or_eq_true,
              Bool.or_false, beq_iff_eq] at this
            tauto
          rcases hmem with h | h | h <;> subst h <;> simp [hs]
  · intro h classify₂
    unfold detect_language
    rw [if_pos h]
  · intro code hc hns
    unfold detect_language
    split
    · rfl
    · rw [hc]
      simp [hns]

theorem detect_language_closed_set_witness :
    (∀ classify₂ : List Char → Except Unit String,
      detect_language classify₂ "hi".toList = none) ∧
    detect_language classifyDe "a long enough German sentence".toList = none :=
  ⟨(detect_language_closed_set classifyDe "hi".toList).2.1 (by decide),
   (detect_language_closed_set classifyDe
       "a long enough German sentence".toList).2.2 "de" rfl (by decide)⟩

/-- C8: for any two texts that meet the minimum detection length (10) and
agree on their first 500 characters, `detect_language` returns the same
result under the same (deterministic, seed-fixed) classifier: the
classification depends only on the bounded leading sample. -/
theorem detect_language_bounded_sample
    (classify : List Char → Except Unit String) (t₁ t₂ : List Char)
    (h₁ : 10 ≤ t₁.length) (h₂ : 10 ≤ t₂.length)
    (hpre : t₁.take 500 = t₂.take 500) :
    detect_language classify t₁ = detect_language classify t₂ := by
  unfold detect_language
  rw [if_neg (by omega), if_neg (by omega), hpre]

theorem detect_language_bounded_sample_witness :
    detect_language classifyEn (List.replicate 510 'a') =
      detect_language classifyEn (List.replicate 510 'a' ++ ['b']) :=
  detect_language_bounded_sample classifyEn
    (List.replicate 510 'a') (List.replicate 510 'a' ++ ['b'])
    (by decide) (by decide) (by decide)

theorem summarizeRun_error (env : ModelEnv) (text : List Char)
    (max_length min_length : Nat) (st' : TransState)
    (h : env.run_sum (if text.length > 4000 then text.take 4000 else text)
        max_length min_length = .error ()) :
    (summarizeRun env text max_length min_length st').1 =
      if text.length > 4000 then text.take 4000 else text := by
  unfold summarizeRun
  rw [h]

/-- C5: `translate_to_english` and `summarize_text` never propagate a
model-invocation error: whenever the translation attempt raises (model
load or any chunk invocation), `translate_to_english` returns the
original input unchanged; whenever the summarizer load or invocation
raises, `summarize_text` returns the input text, possibly truncated to
its first 4000 characters, and neither function ever raises (both are
total by construction). -/
theorem pipeline_error_fallback (env : ModelEnv) (text : List Char)
    (source_language : String) (max_length min_length : Nat)
    (st st₂ : TransState) :
    ((translateTry env text source_language st).1 = .error () →
      (translate_to_english env text source_language st).1 = text) ∧
    ((st₂.summarizer = false ∧ env.load_sum = .error ()) ∨
      env.run_sum (if text.length > 4000 then text.take 4000 else text)
          max_length min_length = .error () →
      (summarize_text env text max_length min_length st₂).1 = text ∨
      (summarize_text env text max_length min_length st₂).1 = text.take 4000) := by
  constructor
  · intro herr
    unfold translate_to_english
    split
    · rfl
    · split
      · rcases hT : translateTry env text source_language st with ⟨r, st'⟩
        rw [hT] at herr
        cases r with
        | error e => rfl
        | ok t => simp at herr
      · rfl
  · intro h
    unfold summarize_text
    split
    · exact Or.inl rfl
    · rename_i hlen
      split
      · rename_i hsum
        rcases h with ⟨hfalse, -⟩ | hrun
        · rw [hsum] at hfalse
          exact absurd hfalse (by simp)
        · rw [summarizeRun_error env text max_length min_length st₂ hrun]
          split
          · exact Or.inr rfl
          · exact Or.inl rfl
      · rename_i hsum
        cases hload : env.load_sum with
        | error e => simp [hload]
        | ok u =>
          simp only [hload]
          rcases h with ⟨-, herr⟩ | hrun
          · rw [hload] at herr
            exact absurd herr (by simp)
          · rw [summarizeRun_error env text max_length min_length _ hrun]
            split
            · exact Or.inr rfl
            · exact Or.inl rfl

theorem pipeline_error_fallback_witness :
    (translate_to_english envFail "Bonjour tout le monde".toList "fr" st0).1 =
      "Bonjour tout le monde".toList ∧
    ((summarize_text envFail (List.replicate 250 'a') 150 50 st0).1 =
        List.replicate 250 'a' ∨
      (summarize_text envFail (List.replicate 250 'a') 150 50 st0).1 =
        (List.replicate 250 'a').take 4000) :=
  ⟨(pipeline_error_fallback envFail "Bonjour tout le monde".toList "fr"
      150 50 st0 st0).1 rfl,
   (pipeline_error_fallback envFail (List.replicate 250 'a') "fr"
      150 50 st0 st0).2 (Or.inl ⟨rfl, rfl⟩)⟩

/-- C2: for every `article_data` dict containing a `text` key,
`process_article` returns `None` exactly when `detect_language` returns
`None` on that text; when detection fails the pipeline aborts with the
module-level model state untouched and independently of the model
environment (so neither the Translator nor the Summarizer is invoked),
and no failure inside translation or summarization ever yields `None`
(the backward direction of the equivalence, for every environment). -/
theorem process_article_detect_gate
    (classify : List Char → Except Unit String) (env : ModelEnv)
    (a : ArticleData) (summary_max_length : Nat) (elapsed : List Char)
    (st : TransState) (t : List Char) (ht : a.text = some t) :
    (((process_article classify env (some a) summary_max_length elapsed st).1
        = none) ↔ detect_language classify t = none) ∧
    (detect_language classify t = none →
      ∀ (env₂ : ModelEnv) (ml₂ : Nat) (el₂ : List Char),
        process_article classify env₂ (some a) ml₂ el₂ st = (none, st)) := by
  constructor
  · simp only [process_article, ht]
    cases hd : detect_language classify t with
    | none => simp [hd]
    | some language => simp [hd]
  · intro hd env₂ ml₂ el₂
    simp [process_article, ht, hd]

/-- A scraped dict whose text is too short for language detection. -/
def articleShort : ArticleData :=
  ⟨some "http://example.com/a".toList, some "Example".toList,
   some "A title".toList, none, some "hi".toList⟩

theorem process_article_detect_gate_witness :
    (((process_article classifyEn envOk (some articleShort) 150
        "0.0s".toList st0).1 = none) ↔
      detect_language classifyEn "hi".toList = none) ∧
    process_article classifyEn envFail (some articleShort) 150 [] st0 =
      (none, st0) :=
  ⟨(process_article_detect_gate classifyEn envOk articleShort 150
      "0.0s".toList st0 "hi".toList rfl).1,
   (process_article_detect_gate classifyEn envOk articleShort 150
      "0.0s".toList st0 "hi".toList rfl).2 (by decide) envFail 150 []⟩

theorem save_article_step_nodup (rows : List SavedRow) (a : ArticleRecord)
    (h : (rows.map SavedRow.url).Nodup) :
    (((save_article rows a).2).map SavedRow.url).Nodup := by
  unfold save_article
  split
  · split
    · exact h
    · rename_i hany
      rw [Bool.not_eq_true, List.any_eq_false] at hany
      rw [List.map_append, List.map_cons, List.map_nil, List.nodup_append]
      refine ⟨h, List.nodup_singleton _, ?_⟩
      intro x hx hx'
      rw [List.mem_singleton] at hx'
      subst hx'
      rcases List.mem_map.1 hx with ⟨r, hr, hru⟩
      exact hany r hr (by rw [hru]; exact beq_self_eq_true _)
  · exact h

/-- C4: the store key invariant of db.py.  First, calling `save_article`
for a URL that is already stored returns `False` and leaves the table
unchanged (the UNIQUE-constraint conflict is benign).  Second, after any
sequence of `save_article` calls starting from a table whose URLs are
distinct (in particular the empty table created by `init_db`), the table
still holds at most one row per URL. -/
theorem save_article_unique_url :
    (∀ (rows : List SavedRow) (a : ArticleRecord) (u : List Char),
      a.url = some u → u ∈ rows.map SavedRow.url →
      save_article rows a = (false, rows)) ∧
    (∀ (init : List SavedRow) (batch : List ArticleRecord),
      (init.map SavedRow.url).Nodup →
      ((batch.foldl (fun rows a => (save_article rows a).2) init).map
          SavedRow.url).Nodup) := by
  constructor
  · intro rows a u hu hmem
    unfold save_article
    split
    · rw [if_pos]
      rw [List.any_eq_true]
      rcases List.mem_map.1 hmem with ⟨r, hr, hru⟩
      refine ⟨r, hr, ?_⟩
      have hrow : (mkRow a).url = u := by unfold mkRow; rw [hu]; rfl
      rw [hrow, hru]
      exact beq_self_eq_true u
    · rfl
  · intro init batch h
    induction batch generalizing init with
    | nil => exact h
    | cons a as ih => exact ih _ (save_article_step_nodup init a h)

/-- A fully populated processed-article dict for the db fixtures. -/
def recA : ArticleRecord :=
  ⟨some "http://example.com/a".toList, some "Example".toList,
   some "A title".toList, some "en".toList, some "body text".toList,
   none, some "a summary".toList, none, none⟩

theorem save_article_unique_url_witness :
    save_article [mkRow recA] recA = (false, [mkRow recA]) ∧
    ((([recA, recA].foldl (fun rows a => (save_article rows a).2)
        []).map SavedRow.url)).Nodup :=
  ⟨save_article_unique_url.1 [mkRow recA] recA
      "http://example.com/a".toList rfl (by decide),
   save_article_unique_url.2 [] [recA, recA] (by decide)⟩

/-- C10: `save_article` returns `False` and inserts nothing whenever any
of the required fields `url`, `source`, `title`, `original_language`,
`original_text`, `summary` is absent or falsy (e.g. the empty string);
with all six present and truthy, `english_text` may be `None` and the row
is still inserted, stored with a NULL `english_text` (while the optional
`date`/`processing_time` are defaulted, never stored as NULL). -/
theorem save_article_required_fields :
    (∀ (rows : List SavedRow) (a : ArticleRecord),
      (truthy a.url = false ∨ truthy a.source = false ∨
       truthy a.title = false ∨ truthy a.original_language = false ∨
       truthy a.original_text = false ∨ truthy a.summary = false) →
      save_article rows a = (false, rows)) ∧
    (∀ (rows : List SavedRow) (a : ArticleRecord),
      truthy a.url = true → truthy a.source = true → truthy a.title = true →
      truthy a.original_language = true → truthy a.original_text = true →
      truthy a.summary = true → a.english_text = none →
      (mkRow a).url ∉ rows.map SavedRow.url →
      save_article rows a = (true, rows ++ [mkRow a]) ∧
        (mkRow a).english_text = none) := by
  constructor
  · intro rows a h
    unfold save_article
    rw [if_neg]
    rcases h with h | h | h | h | h | h <;> simp [h]
  · intro rows a h1 h2 h3 h4 h5 h6 hen hmem
    unfold save_article
    rw [if_pos (by rw [h1, h2, h3, h4, h5, h6]; rfl), if_neg]
    · exact ⟨rfl, hen⟩
    · rw [Bool.not_eq_true, List.any_eq_false]
      intro r hr
      rw [Bool.not_eq_true, beq_eq_false_iff_ne]
      intro hru
      exact hmem (List.mem_map.2 ⟨r, hr, hru⟩)

/-- The fixture dict with its required `url` missing. -/
def recNoUrl : ArticleRecord := { recA with url := none }

theorem save_article_required_fields_witness :
    save_article [] recNoUrl = (false, []) ∧
    (save_article [] recA = (true, [] ++ [mkRow recA]) ∧
      (mkRow recA).english_text = none) :=
  ⟨save_article_required_fields.1 [] recNoUrl (Or.inl rfl),
   save_article_required_fields.2 [] recA rfl rfl rfl rfl rfl rfl rfl
     (by decide)⟩

theorem find?_append_of_none {α : Type} (P : α → Bool) (l₁ l₂ : List α)
    (h : l₁.find? P = none) : (l₁ ++ l₂).find? P = l₂.find? P := by
  induction l₁ with
  | nil => rfl
  | cons x xs ih =>
    cases hPx : P x with
    | true =>
      rw [List.find?_cons_of_pos _ hPx] at h
      exact absurd h (by simp)
    | false =>
      have hneg : ¬P x = true := by simp [hPx]
      rw [List.find?_cons_of_neg _ hneg] at h
      rw [List.cons_append, List.find?_cons_of_neg _ hneg]
      exact ih h

theorem storeGet_none_any (store : List (List Char × ProcessedArticle))
    (url : List Char) (h : storeGet store url = none) :
    store.any (fun e => e.1 == url) = false := by
  unfold storeGet at h
  rw [Option.map_eq_none'] at h
  rw [List.find?_eq_none] at h
  rw [List.any_eq_false]
  intro x hx
  exact h x hx

theorem storeGet_append_self (store : List (List Char × ProcessedArticle))
    (url : List Char) (p : ProcessedArticle) (h : storeGet store url = none) :
    storeGet (store ++ [(url, p)]) url = some p := by
  unfold storeGet at h ⊢
  rw [Option.map_eq_none'] at h
  rw [find?_append_of_none _ _ _ h]
  simp [List.find?]

theorem process_article_some_url (classify : List Char → Except Unit String)
    (env : ModelEnv) (a : ArticleData) (ml : Nat) (el : List Char)
    (st st' : TransState) (p : ProcessedArticle)
    (h : process_article classify env (some a) ml el st = (some p, st')) :
    p.url = a.url.getD "N/A".toList := by
  simp only [process_article] at h
  split at h
  · simp at h
  · split at h
    · simp at h
    · rw [Prod.mk.injEq] at h
      obtain ⟨h1, -⟩ := h
      rw [Option.some.injEq] at h1
      rw [← h1]

theorem gateway_noforce_eq (classify : List Char → Except Unit String)
    (env : ModelEnv) (store : List (List Char × ProcessedArticle))
    (a : ArticleData) (ml : Nat) (el : List Char) (st : TransState) :
    process_article_with_cache classify env store a false ml el st =
      match storeGet store (a.url.getD "N/A".toList) with
      | some cached => (some cached, store, st)
      | none =>
        match process_article classify env (some a) ml el st with
        | (none, st') => (none, store, st')
        | (some p, st') => (some p, storePut store p, st') := rfl

/-- C1 (Cache Gateway, modelled from the spec since
`process_article_with_cache` is not under src/): with
`force_refresh = false`, a URL whose ProcessedArticle is already persisted
is answered from the store — the returned record is the stored one, the
store and model state are untouched, and the Orchestrator is not invoked
(the result does not depend on `classify`/`env`).  A URL with no stored
record invokes the Orchestrator, persists the successful result keyed by
the URL, and returns it; a second call for the same URL then returns that
identical ProcessedArticle. -/
theorem process_article_with_cache_spec
    (classify : List Char → Except Unit String) (env : ModelEnv)
    (store : List (List Char × ProcessedArticle)) (a : ArticleData)
    (ml : Nat) (el : List Char) (st : TransState) :
    (∀ p, storeGet store (a.url.getD "N/A".toList) = some p →
      process_article_with_cache classify env store a false ml el st =
        (some p, store, st)) ∧
    (storeGet store (a.url.getD "N/A".toList) = none →
      ∀ p st',
        process_article classify env (some a) ml el st = (some p, st') →
        process_article_with_cache classify env store a false ml el st =
          (some p, store ++ [(p.url, p)], st') ∧
        ∀ (classify₂ : List Char → Except Unit String) (env₂ : ModelEnv)
          (ml₂ : Nat) (el₂ : List Char) (st₂ : TransState),
          (process_article_with_cache classify₂ env₂ (store ++ [(p.url, p)])
              a false ml₂ el₂ st₂).1 = some p) := by
  constructor
  · intro p hp
    rw [gateway_noforce_eq, hp]
  · intro hmiss p st' hproc
    have hurl : p.url = a.url.getD "N/A".toList :=
      process_article_some_url classify env a ml el st st' p hproc
    have hput : storePut store p = store ++ [(p.url, p)] := by
      unfold storePut
      rw [if_neg]
      rw [Bool.not_eq_true, hurl]
      exact storeGet_none_any store _ hmiss
    constructor
    · rw [gateway_noforce_eq, hmiss, hproc, ← hput]
    · intro classify₂ env₂ ml₂ el₂ st₂
      have hget : storeGet (store ++ [(p.url, p)]) (a.url.getD "N/A".toList)
          = some p := by
        rw [hurl]
        exact storeGet_append_self store _ p hmiss
      rw [gateway_noforce_eq, hget]

/-- A previously persisted ProcessedArticle for the gateway fixtures. -/
def pA : ProcessedArticle :=
  ⟨"http://example.com/a".toList, "Example".toList, "A title".toList,
   "N/A".toList, "en", "old body".toList, "old body".toList,
   "old summary".toList, "42.0s".toList⟩

/-- A scraped English article whose processing avoids every model call
(short text, already English). -/
def articleEn : ArticleData :=
  ⟨some "http://example.com/a".toList, some "Example".toList,
   some "A title".toList, none, some "hello world news text".toList⟩

/-- The ProcessedArticle the Orchestrator computes for `articleEn`. -/
def pEn : ProcessedArticle :=
  ⟨"http://example.com/a".toList, "Example".toList, "A title".toList,
   "N/A".toList, "en", "hello world news text".toList,
   "hello world news text".toList, "hello world news text".toList,
   "0.0s".toList⟩

theorem process_article_with_cache_spec_witness :
    process_article_with_cache classifyEn envFail
        [("http://example.com/a".toList, pA)] articleEn false 150
        "0.0s".toList st0 =
      (some pA, [("http://example.com/a".toList, pA)], st0) ∧
    process_article_with_cache classifyEn envFail [] articleEn false 150
        "0.0s".toList st0 =
      (some pEn, [] ++ [(pEn.url, pEn)], st0) ∧
    (process_article_with_cache classifyDe envOk ([] ++ [(pEn.url, pEn)])
        articleEn false 99 [] st0).1 = some pEn := by
  refine ⟨?_, ?_, ?_⟩
  · exact (process_article_with_cache_spec classifyEn envFail
      [("http://example.com/a".toList, pA)] articleEn 150
      "0.0s".toList st0).1 pA (by decide)
  · exact ((process_article_with_cache_spec classifyEn envFail [] articleEn
      150 "0.0s".toList st0).2 rfl pEn st0 (by decide)).1
  · exact ((process_article_with_cache_spec classifyEn envFail [] articleEn
      150 "0.0s".toList st0).2 rfl pEn st0 (by decide)).2
      classifyDe envOk 99 [] st0

end NewsSummarizer
